import Mathlib
/-!
Shallow embedding of the pyliza twitter interaction core
(`src/twitter/twitterInteractions.py` and `src/twitter/twitterClient.py`).

Conventions of the embedding:
* Python exceptions (all derived from `Exception`) are modelled by the
  inductive type `Exc`; fallible calls return `Except Exc α`.
* Timestamps (`created_at`, `start_time`) are already-parsed absolute
  instants, modelled as `Int` (seconds); `strptime` parsing of the
  platform date format is assumed successful, as in the data model of the
  spec (a Candidate Post carries a parsed instant).
* Tweet identifiers are the parsed integers (`int(tweet["id"])`),
  modelled as `Nat`; the Chroma collection keyed by the id string is
  modelled by the set (list) of stored ids, since only membership of the
  key decides control flow (the stored metadata never feeds back).
* External collaborators (chroma store, response generator, context
  hooks, the posting endpoint) are oracles: arbitrary functions fixed in
  the `Handler` / `Env`, whose results range over success and failure.
* `random.choice` is modelled by an injected index reduced modulo the
  list length.
-/
/-- Python exception values that can flow through the interaction code. -/
inductive Exc where
  | fileNotFound
  | jsonDecode
  | attrError
  | typeError
  | valueError
  | indexError
  | sendFailed (status : Nat) (body : String)
  | other (msg : String)
deriving DecidableEq, Repr
/-- The two exception classes caught by the narrow handler in
`has_responded_to_tweet`: `except (FileNotFoundError, json.JSONDecodeError)`. -/
def narrowCatch (e : Exc) : Bool :=
  match e with
  | .fileNotFound => true
  | .jsonDecode => true
  | _ => false
/-- A candidate post as consumed by `check_mentions`: the fields of the
dict built by `TwitterClient.search_tweets` that the interaction loop
reads, with `id` parsed (`int(tweet["id"])`) and `created_at` parsed
(`datetime.strptime(..., "%a %b %d %H:%M:%S %z %Y")`). -/
structure Tweet where
  id : Nat
  text : String
  username : String
  created_at : Int
deriving DecidableEq, Repr
/-- The chroma client handed to the handler: the current contents of the
`tweet_responses` collection (ids that hold a Response Record) plus
failure oracles for the `collection.get` and `collection.add` calls. -/
structure Chroma where
  records : List Nat
  getExc : Nat → Option Exc
  addExc : Nat → Option Exc
/-- The response generator stored in `self.response_generator` after
`response_generator or self.default_response` in `__init__`:
either the bound method `default_response` (when the argument was
`None`/falsy) or the user-supplied callable. -/
inductive RespGen where
  | default
  | custom (g : String → String → Except Exc String)
/-- One entry of `reply_targets`. -/
structure ReplyTarget where
  searchTerm : String
  searchContext : String
deriving DecidableEq, Repr
/-- The state of a `TwitterInteractionHandler` after `__init__`. -/
structure Handler where
  username : String
  response_generator : RespGen
  last_checked_tweet_id : Option Nat
  chroma_client : Option Chroma
  search_terms : List String
  reply_targets : List ReplyTarget
  getUserContext : Option (String → Except Exc String)
  updateUserContext : Option (String → String → Except Exc Unit)
  fetchContext : Option (String → Except Exc String)
  start_time : Int
/-- Contents of `last_checked_tweet.json` as seen by
`load_last_checked_tweet_id`. -/
inductive CursorFile where
  | missing
  | malformed
  | data (last_checked_tweet_id : Option Nat)
/-- `load_last_checked_tweet_id`: returns the stored id, or `None` when
the file is missing or malformed (`except (FileNotFoundError,
json.JSONDecodeError): return None`). -/
def load_last_checked_tweet_id (f : CursorFile) : Option Nat :=
  match f with
  | .missing => none
  | .malformed => none
  | .data v => v
/-- Seconds in `timedelta(hours=24)`. -/
def hours24 : Int := 24 * 60 * 60
/-- `TwitterInteractionHandler.__init__`: binds the collaborators and
captures `start_time = datetime.now(timezone.utc) - timedelta(hours=24)`,
where `now` is the construction instant. -/
def mkHandler (clientUsername : String) (response_generator : Option (String → String → Except Exc String))
    (chroma_client : Option Chroma) (search_terms : List String)
    (reply_targets : List ReplyTarget)
    (getUserContext : Option (String → Except Exc String))
    (fetchContext : Option (String → Except Exc String))
    (updateUserContext : Option (String → String → Except Exc Unit))
    (cursorFile : CursorFile) (now : Int) : Handler :=
  { username := clientUsername
    response_generator :=
      match response_generator with
      | none => .default
      | some g => .custom g
    last_checked_tweet_id := load_last_checked_tweet_id cursorFile
    chroma_client := chroma_client
    search_terms := search_terms
    reply_targets := reply_targets
    getUserContext := getUserContext
    updateUserContext := updateUserContext
    fetchContext := fetchContext
    start_time := now - hours24 }
/-- `self.last_checked_tweet_id or 0`: a missing (or zero) cursor behaves
as 0. -/
def cursorVal (h : Handler) : Nat := h.last_checked_tweet_id.getD 0
/-- Initial contents of the `tweet_responses` collection (empty when no
chroma client is configured; with no client the lookups never reach the
store anyway). -/
def initRecords (h : Handler) : List Nat :=
  match h.chroma_client with
  | some c => c.records
  | none => []
/-- `has_responded_to_tweet`: `get_or_create_collection` then
`collection.get(ids=[tweet_id])`; returns whether `results["ids"]` is
non-empty.  With `chroma_client = None` the attribute access on `None`
raises `AttributeError`.  Only `FileNotFoundError` and
`json.JSONDecodeError` are caught (returning `False`); every other
exception propagates.  `recs` is the current collection content. -/
def has_responded_to_tweet (h : Handler) (recs : List Nat) (tweet_id : Nat) :
    Except Exc Bool :=
  let raw : Except Exc (List Nat) :=
    match h.chroma_client with
    | none => .error .attrError
    | some c =>
      match c.getExc tweet_id with
      | some e => .error e
      | none => .ok (recs.filter (fun r => r = tweet_id))
  match raw with
  | .ok ids => .ok (decide (0 < ids.length))
  | .error e => if narrowCatch e then .ok false else .error e
/-- `log_response`: when a chroma client is configured, adds a record
keyed by the original tweet id to the `tweet_responses` collection
(`collection.add(ids=[original_tweet_id], ...)`); without a chroma
client the body is skipped (`if self.chroma_client:`).  Returns the new
collection content plus a ghost flag reporting whether a record was
actually written; the `add` call may raise. -/
def log_response (h : Handler) (recs : List Nat) (original_tweet_id : Nat) :
    Except Exc (List Nat × Bool) :=
  match h.chroma_client with
  | none => .ok (recs, false)
  | some c =>
    match c.addExc original_tweet_id with
    | some e => .error e
    | none => .ok (recs ++ [original_tweet_id], true)
/-- `default_response`: the fallback generator; a one-argument method
returning a constant greeting. -/
def default_response (tweet_text : String) : String :=
  "Hi there! I am Rice "
/-- The template wrapped around a fetched context blob inside
`generate_response`. -/
def fetchedContextWrap (fetchedContext : String) : String :=
  "\n Below is some fetched context, it includes some inner thoughts / context from the internet / etc. \n<fetchedContext>" ++
    fetchedContext ++
    "</fetchedContext>\n If relevant, you can use this context to inform your response.\n"
/-- The final call `self.response_generator(tweet_text,
additionalContext=additionalContext)` in `generate_response`.  When the
stored generator is the bound `default_response` (constructed with
`response_generator=None`), the call passes an unexpected keyword
argument `additionalContext` to a one-parameter method and raises
`TypeError`. -/
def callResponseGenerator (h : Handler) (tweet_text additionalContext : String) :
    Except Exc String :=
  match h.response_generator with
  | .default => .error .typeError
  | .custom g => g tweet_text additionalContext
/-- `generate_response`: optionally runs the `fetchContext` collaborator
(appending the wrapped blob to the additional context), then invokes the
stored response generator with the `additionalContext` keyword. -/
def generate_response (h : Handler) (tweet_text additionalContext : String) :
    Except Exc String :=
  match h.fetchContext with
  | none => callResponseGenerator h tweet_text additionalContext
  | some f =>
    match f tweet_text with
    | .error e => .error e
    | .ok fetched =>
      callResponseGenerator h tweet_text (additionalContext ++ fetchedContextWrap fetched)
/-- Modelled from the spec: the prompt assembler `getTweetResponsePrompt`
is imported from `helpers`, a repository module that is not under `src/`;
per the spec it assembles a prompt from the post text, the author handle
and the `searchContext`.  Its exact text never influences control flow. -/
def getTweetResponsePrompt (tweetContent username searchContext : String) : String :=
  "Respond to the tweet from @" ++ username ++ ": " ++ tweetContent ++
    "\n Search context: " ++ searchContext
/-- The interaction summary pushed to `updateUserContext` after a reply
(the f-string `interaction` in `check_mentions`). -/
def interactionText (t : Tweet) (response_text : String) : String :=
  "\n You had the following interaction with " ++ t.username ++
    "\n " ++ t.username ++ " tweeted : " ++ t.text ++
    "\n\n You responded with : " ++ response_text ++ "\n "
/-- The `additionalContext + userContext` step of the loop body
(`if self.getUserContext: ... else respondContext = additionalContext`). -/
def userCtxRes (h : Handler) (additionalContext : String) (t : Tweet) :
    Except Exc String :=
  match h.getUserContext with
  | none => .ok additionalContext
  | some g =>
    match g t.username with
    | .error e => .error e
    | .ok userContext => .ok (additionalContext ++ userContext)
/-- The `updateUserContext` step of the loop body. -/
def updRes (h : Handler) (t : Tweet) (response_text : String) : Except Exc Unit :=
  match h.updateUserContext with
  | none => .ok ()
  | some u => u t.username (interactionText t response_text)
/-- Collaborator behaviour fixed for one run: the search results the
client returns per query, the posting outcome per reply target
(`none` = HTTP 200, `some e` = `send_tweet` raised `e`), and what
`get_followers` yields on the injected client. -/
structure Env where
  search : String → List Tweet
  sendExc : Option Nat → Option Exc
  get_followers : Except Exc (List (String × String))
/-- Observable state accumulated during one `check_mentions` cycle:
the chroma collection contents, ids that reached the reply pipeline
(the `Processing tweet ...` stage), replies actually posted
(text, in-reply-to id), ids for which a Response Record was written,
the `nResponses` counter, and the exception caught at the method
boundary (`except Exception as e`), if any. -/
structure St where
  records : List Nat
  processed : List Nat
  posts : List (String × Option Nat)
  logged : List Nat
  nResponses : Nat
  caught : Option Exc
deriving DecidableEq, Repr
/-- The `for tweet in tweets:` loop of `check_mentions`, over the
pre-filtered, id-sorted candidates.  Returns the final state and the
in-flight exception (to be caught by the boundary handler), if one was
raised. -/
def runLoop (h : Handler) (env : Env) (additionalContext searchContext : String)
    (maxReplies : Nat) : List Tweet → St → St × Option Exc
  | [], st => (st, none)
  | t :: rest, st =>
    if t.created_at < h.start_time then
      runLoop h env additionalContext searchContext maxReplies rest st
    else if t.username = h.username then
      runLoop h env additionalContext searchContext maxReplies rest st
    else
      match has_responded_to_tweet h st.records t.id with
      | .error e => (st, some e)
      | .ok true => runLoop h env additionalContext searchContext maxReplies rest st
      | .ok false =>
        let st1 := { st with processed := st.processed ++ [t.id] }
        match userCtxRes h additionalContext t with
        | .error e => (st1, some e)
        | .ok respondContext =>
          match generate_response h (getTweetResponsePrompt t.text t.username searchContext)
              respondContext with
          | .error e => (st1, some e)
          | .ok response_text =>
            let st2 := { st1 with nResponses := st1.nResponses + 1 }
            match env.sendExc (some t.id) with
            | some e => (st2, some e)
            | none =>
              let st3 := { st2 with posts := st2.posts ++ [(response_text, some t.id)] }
              match updRes h t response_text with
              | .error e => (st3, some e)
              | .ok _ =>
                match log_response h st3.records t.id with
                | .error e => (st3, some e)
                | .ok recs2 =>
                  let st4 := { st3 with records := recs2.1
                                        logged := if recs2.2 then st3.logged ++ [t.id]
                                          else st3.logged }
                  if maxReplies ≤ st4.nResponses then (st4, none)
                  else runLoop h env additionalContext searchContext maxReplies rest st4
/-- The pre-loop candidate list of `check_mentions`:
`sorted([t for t in search_response if int(t.id) > (cursor or 0)],
key=lambda x: int(x.id))` — cursor filter, then a stable ascending sort
by id. -/
def candList (h : Handler) (resp : List Tweet) : List Tweet :=
  List.insertionSort (fun a b => a.id ≤ b.id)
    (resp.filter (fun t => decide (cursorVal h < t.id)))
/-- `check_mentions`: search, early return on an empty result, cursor
filter + ascending sort, then the reply loop; the whole body sits in
`try: ... except Exception as e: print(...)`, so any in-flight exception
is recorded in `caught` and the method returns normally (the second
component — the exception propagated to the caller — is always `none`). -/
def check_mentions (h : Handler) (env : Env) (searchTerm additionalContext searchContext : String)
    (maxReplies : Nat) : St × Option Exc :=
  let search_response := env.search searchTerm
  let st0 : St :=
    { records := initRecords h, processed := [], posts := [], logged := []
      nResponses := 0, caught := none }
  if search_response.isEmpty then (st0, none)
  else
    let tweets := candList h search_response
    let r := runLoop h env additionalContext searchContext maxReplies tweets st0
    ({ r.1 with caught := r.2 }, none)
/-- Update the handler so that its chroma client reflects the collection
contents left behind by a finished cycle (the store is shared state
across calls). -/
def updateRecords (h : Handler) (recs : List Nat) : Handler :=
  match h.chroma_client with
  | none => h
  | some c => { h with chroma_client := some { c with records := recs } }
/-- `monitor_mentions`: one `check_mentions` per configured search term,
sequentially, inside a boundary `try/except Exception`; returns the
per-term cycle states and never propagates an exception
(`check_interval` is accepted and unused, as in the source). -/
def monitor_mentions (h : Handler) (env : Env) (check_interval : Nat)
    (additionalContext : String) : List St × Option Exc :=
  let step := fun (acc : Handler × List St) (term : String) =>
    let r := check_mentions acc.1 env term additionalContext "" 3
    (updateRecords acc.1 r.1.records, acc.2 ++ [r.1])
  let res := h.search_terms.foldl step (h, [])
  (res.2, none)
/-- `reply_guy`: no-op when `reply_targets` is empty; otherwise picks a
target (`random.choice` modelled by the injected index modulo the list
length), builds the query `from:<searchTerm>`, and delegates to
`check_mentions` with the target search context and the default cap of
3; wrapped in a boundary `try/except Exception`, so nothing propagates. -/
def reply_guy (h : Handler) (env : Env) (choice : Nat) (check_interval : Nat)
    (additionalContext : String) : Option St × Option Exc :=
  match h.reply_targets with
  | [] => (none, none)
  | target :: more =>
    let reply_target := (target :: more).getD (choice % (more.length + 1)) target
    let r := check_mentions h env ("from:" ++ reply_target.searchTerm)
      additionalContext reply_target.searchContext 3
    (some r.1, none)
/-- The persona prompt assembled by `tweet_to_followers` for the chosen
follower (handle, description and the tweet-style block). -/
def followerPrompt (username description : String) : String :=
  "\n Tweet to your follower - " ++ username ++
    " make sure to include their handle i.e. @" ++ username ++ " in the tweet.\n Profile of " ++
    username ++ " : " ++ description ++
    "\n\n When tweeting consider the below tweet style instructions \n<tweetStyle>\n never use hashtags or emojis\n response should be short, punchy, and to the point\n</tweetStyle>\n Base the tweet on your current thought process and stay true to your identity.\n"
/-- The interaction summary pushed to `updateUserContext` by
`tweet_to_followers`. -/
def followerInteraction (username description tweet_text : String) : String :=
  "\n You tweeted to " ++ username ++ " : " ++ tweet_text ++
    "\n Profile of " ++ username ++ " : " ++ description ++
    "\n They follow you\n "
/-- `tweet_to_followers`: fetches the follower list from the client,
picks one by `random.choice` (raising `IndexError` on an empty list),
assembles the persona prompt, optionally merges user context, generates
and posts a top-level tweet (no `reply_to_tweet_id`), then optionally
pushes the interaction summary.  There is **no** try/except: the second
component is the exception propagated to the caller, the first the
posts actually made. -/
def tweet_to_followers (h : Handler) (env : Env) (choice : Nat)
    (check_interval : Nat) (additionalContext : String) :
    List (String × Option Nat) × Option Exc :=
  match env.get_followers with
  | .error e => ([], some e)
  | .ok followers =>
    match followers with
    | [] => ([], some .indexError)
    | f :: more =>
      let follower := (f :: more).getD (choice % (more.length + 1)) f
      let prompt := followerPrompt follower.1 follower.2
      let ctxRes : Except Exc String :=
        match h.getUserContext with
        | none => .ok additionalContext
        | some g =>
          match g follower.1 with
          | .error e => .error e
          | .ok fc => .ok (additionalContext ++ fc)
      match ctxRes with
      | .error e => ([], some e)
      | .ok ctx =>
        match generate_response h prompt ctx with
        | .error e => ([], some e)
        | .ok tweet_text =>
          match env.sendExc none with
          | some e => ([], some e)
          | none =>
            match h.updateUserContext with
            | none => ([(tweet_text, none)], none)
            | some u =>
              match u follower.1 (followerInteraction follower.1 follower.2 tweet_text) with
              | .error e => ([(tweet_text, none)], some e)
              | .ok _ => ([(tweet_text, none)], none)
/-- `TwitterClient` (src/twitter/twitterClient.py) defines
`search_tweets`, `send_tweet`, `get_tweet` and `get_user_tweets` but no
`get_followers`; the attribute access `self.client.get_followers`
performed by `tweet_to_followers` therefore raises `AttributeError` on
the repository client. -/
def twitterClient_get_followers : Except Exc (List (String × String)) :=
  .error .attrError
/-!  Embedding of `TwitterClient.search_tweets` and its CSRF helper. -/
/-- The `requests.Session` pieces the client touches: headers and the
cookie jar (name/value pairs). -/
structure Session where
  headers : List (String × String)
  cookies : List (String × String)
deriving Repr
/-- `get_csrf_token`: `self.session.cookies.get("ct0", domain=".twitter.com")`,
a lookup in the cookie jar. -/
def get_csrf_token (s : Session) : Option String :=
  (s.cookies.find? (fun c => c.1 = "ct0")).map (fun c => c.2)
/-- `_update_headers_with_csrf`: sets the `x-csrf-token` header when a
`ct0` cookie exists, else leaves the session unchanged. -/
def update_headers_with_csrf (s : Session) : Session :=
  match get_csrf_token s with
  | none => s
  | some csrf_token => { s with headers := s.headers ++ [("x-csrf-token", csrf_token)] }
/-- The `legacy` object of one search entry (fields read by
`search_tweets`; `None` for absent keys, as `dict.get` yields). -/
structure Legacy where
  id_str : Option String
  full_text : Option String
  created_at : Option String
  conversation_id_str : Option String
  in_reply_to_status_id_str : Option String
  in_reply_to_user_id_str : Option String
deriving DecidableEq, Repr
/-- The user `legacy` object of one search entry. -/
structure UserLegacy where
  screen_name : Option String
  name : Option String
  id_str : Option String
deriving DecidableEq, Repr
/-- `entry.content.itemContent.tweet_results.result` reduced to the parts
the extraction reads; `legacy`/`user_legacy` are `none` when the
corresponding dict is missing or empty (`if not legacy or not user_legacy`). -/
structure EntryResult where
  legacy : Option Legacy
  user_legacy : Option UserLegacy
deriving DecidableEq, Repr
/-- One timeline entry: its `entryId` and its `result` (`none` when the
navigation bottoms out in an empty dict: `if not result: continue`). -/
structure Entry where
  entryId : String
  result : Option EntryResult
deriving DecidableEq, Repr
/-- One timeline instruction: its `type` tag and its entries
(`instruction.get("entries", [])`). -/
structure Instruction where
  type : String
  entries : List Entry
deriving DecidableEq, Repr
/-- A successfully parsed search response body, reduced to
`data.search_by_raw_query.search_timeline.timeline.instructions`
(each `.get` defaulting to an empty value on a missing key). -/
structure SearchBody where
  instructions : List Instruction
deriving DecidableEq, Repr
/-- The tweet dict assembled by `search_tweets` (each field via
`dict.get`, hence optional). -/
structure TweetDict where
  id : Option String
  text : Option String
  username : Option String
  name : Option String
  user_id : Option String
  created_at : Option String
  conversation_id : Option String
  in_reply_to_status_id : Option String
  in_reply_to_user_id : Option String
deriving DecidableEq, Repr
/-- Outcome of the HTTP GET performed by `search_tweets`:
either the request itself raised, or it returned a status code, a body
text, and — when the body was valid JSON — the parsed body
(`none` models `response.json()` raising). -/
inductive HttpResult where
  | err (e : Exc)
  | resp (status : Nat) (text : String) (body : Option SearchBody)
/-- The per-entry extraction of `search_tweets`: skip entries whose id
does not start with `tweet-`, skip empty results, skip entries without
both `legacy` and user `legacy`, else build the tweet dict. -/
def entryTweet (e : Entry) : Option TweetDict :=
  if ¬ e.entryId.startsWith "tweet-" then none
  else
    match e.result with
    | none => none
    | some result =>
      match result.legacy, result.user_legacy with
      | some legacy, some user_legacy =>
        some { id := legacy.id_str
               text := legacy.full_text
               username := user_legacy.screen_name
               name := user_legacy.name
               user_id := user_legacy.id_str
               created_at := legacy.created_at
               conversation_id := legacy.conversation_id_str
               in_reply_to_status_id := legacy.in_reply_to_status_id_str
               in_reply_to_user_id := legacy.in_reply_to_user_id_str }
      | _, _ => none
/-- The instruction walk of `search_tweets`: only
`TimelineAddEntries` instructions contribute, in order. -/
def extractTweets (body : SearchBody) : List TweetDict :=
  ((body.instructions.filter (fun ins => ins.type = "TimelineAddEntries")).map
    (fun ins => ins.entries.filterMap entryTweet)).flatten
/-- `search_tweets`: updates the CSRF header, performs the GET inside
`try: ... except Exception: return []`; a non-200 status returns `[]`,
a `response.json()` failure is caught by the same handler and returns
`[]`; otherwise the extraction runs.  Total by construction — the
method never raises. -/
def search_tweets (s : Session) (r : HttpResult) : List TweetDict :=
  let _s2 := update_headers_with_csrf s
  match r with
  | .err _ => []
  | .resp status _text body =>
    if status ≠ 200 then []
    else
      match body with
      | none => []
      | some b => extractTweets b
/-!  Derived predicates used to state the claims. -/
/-- The in-loop skip conditions: keep a candidate iff its timestamp is
not before the session window start, its author is not the engine
itself, and the store (contents `recs`) holds no Response Record for it. -/
def eligB (h : Handler) (recs : List Nat) (t : Tweet) : Bool :=
  !decide (t.created_at < h.start_time) && !decide (t.username = h.username) &&
    !decide (t.id ∈ recs)
/-- The eligible candidates as the spec phrases them: identifier
strictly above the cursor (missing cursor = 0), timestamp not before the
session window start, author differing from the engine identity, no
existing Response Record — in ascending id order. -/
def claimEligible (h : Handler) (resp : List Tweet) : List Tweet :=
  List.insertionSort (fun a b => a.id ≤ b.id)
    (resp.filter (fun t => decide (cursorVal h < t.id) && eligB h (initRecords h) t))
/-- The reply text the pipeline would produce for candidate `t`
(user-context step, then `generate_response`). -/
def respTextRes (h : Handler) (additionalContext searchContext : String) (t : Tweet) :
    Except Exc String :=
  match userCtxRes h additionalContext t with
  | .error e => .error e
  | .ok respondContext =>
    generate_response h (getTweetResponsePrompt t.text t.username searchContext) respondContext
/-- The reply text for `t` when generation succeeds (junk otherwise). -/
def respValue (h : Handler) (additionalContext searchContext : String) (t : Tweet) : String :=
  match respTextRes h additionalContext searchContext t with
  | .ok r => r
  | .error _ => ""
/-- All collaborator calls the pipeline makes for candidate `t` succeed:
the chroma client is configured and its lookup and write for `t.id` do
not raise, context retrieval and response generation succeed, the post
returns 200, and the user-context update succeeds. -/
def stepOkB (h : Handler) (env : Env) (additionalContext searchContext : String)
    (t : Tweet) : Bool :=
  (match h.chroma_client with
   | none => false
   | some c => (c.getExc t.id).isNone && (c.addExc t.id).isNone) &&
  (match respTextRes h additionalContext searchContext t with
   | .error _ => false
   | .ok r =>
     (env.sendExc (some t.id)).isNone &&
       (match updRes h t r with
        | .error _ => false
        | .ok _ => true))
/-- How many eligible candidates one cycle processes, starting from a
response counter `n` with cap `m`: the cap is checked only *after* a
reply, so at least one eligible candidate is processed whenever any
exists. -/
def stopCount (m n elig : Nat) : Nat := min elig (max (m - n) 1)
/-- The candidates one loop run actually processes: the eligible ones,
cut off by the reply cap. -/
def cycleTaken (h : Handler) (recs : List Nat) (m n : Nat) (l : List Tweet) : List Tweet :=
  let elig := l.filter (eligB h recs)
  elig.take (stopCount m n elig.length)
/-!  Equation lemmas for single loop iterations. -/
instance : IsTotal Tweet (fun a b => a.id ≤ b.id) :=
  ⟨fun a b => Nat.le_total a.id b.id⟩
instance : IsTrans Tweet (fun a b => a.id ≤ b.id) :=
  ⟨fun _ _ _ h1 h2 => Nat.le_trans h1 h2⟩
instance : IsAntisymm Tweet (fun a b => a.id < b.id) :=
  ⟨fun _ _ h1 h2 => absurd (Nat.lt_trans h1 h2) (Nat.lt_irrefl _)⟩
/-- The candidates one invocation of `check_mentions` replies to when
every collaborator call succeeds: the eligible candidates in ascending
id order, cut off by the reply cap. -/
def claimTaken (h : Handler) (m : Nat) (resp : List Tweet) : List Tweet :=
  (claimEligible h resp).take (stopCount m 0 (claimEligible h resp).length)
/-- A chroma client whose lookups and writes always succeed. -/
def okChroma : Chroma := ⟨[], fun _ => none, fun _ => none⟩
/-- A response generator that always succeeds. -/
def okGen : String → String → Except Exc String := fun _ _ => .ok "reply"
/-- A handler with successful collaborators and no optional hooks. -/
def baseHandler : Handler :=
  { username := "riceai", response_generator := .custom okGen
    last_checked_tweet_id := none, chroma_client := some okChroma
    search_terms := [], reply_targets := []
    getUserContext := none, updateUserContext := none, fetchContext := none
    start_time := 0 }
/-- An environment returning the given search results, with posting
always succeeding. -/
def okEnv (l : List Tweet) : Env := ⟨fun _ => l, fun _ => none, .ok []⟩
def fourTweets : List Tweet :=
  [⟨1, "m1", "alice", 10⟩, ⟨2, "m2", "bob", 11⟩,
   ⟨3, "m3", "carol", 12⟩, ⟨4, "m4", "dave", 13⟩]
def c2Handler : Handler :=
  mkHandler "riceai" (some okGen) (some okChroma) [] [] none none none .missing 1000000
def c2Tweet : Tweet := ⟨42, "hey", "alice", 999990⟩
def c3Tweet : Tweet := ⟨9, "hi", "alice", 10⟩
def c4Handler : Handler :=
  { baseHandler with updateUserContext := some (fun _ _ => .error (.other "ctx fail")) }
def c4Tweet : Tweet := ⟨7, "yo", "alice", 10⟩
def c4FailEnv : Env :=
  ⟨fun _ => [c4Tweet], fun _ => some (.sendFailed 403 "Failed to send tweet"), .ok []⟩
def c5Handler : Handler :=
  { baseHandler with
    chroma_client := some ⟨[], fun _ => some (.other "db down"), fun _ => none⟩ }
def c8Env : Env := ⟨fun _ => [], fun _ => none, twitterClient_get_followers⟩
def c10Handler : Handler := { baseHandler with chroma_client := none }
def c10Tweet : Tweet := ⟨5, "ping", "alice", 10⟩

/-- The collaborator calls made for candidate `t` *before* the post
succeed: the chroma client is configured and its lookup for `t.id` does
not raise, and context retrieval plus response generation succeed.
Used to state the mid-batch posting-failure abort. -/
def preSendOkB (h : Handler) (aC sC : String) (t : Tweet) : Bool :=
  (match h.chroma_client with
   | none => false
   | some c => (c.getExc t.id).isNone) &&
  (match respTextRes h aC sC t with
   | .error _ => false
   | .ok _ => true)

def c4MidTweets : List Tweet :=
  [⟨7, "yo", "alice", 10⟩, ⟨8, "beep", "bob", 11⟩, ⟨9, "sup", "carol", 12⟩]

/-- Environment where posting fails exactly for the reply to tweet 8:
the second of three eligible candidates. -/
def c4MidEnv : Env :=
  ⟨fun _ => c4MidTweets,
   fun ro => if ro = some 8 then some (.sendFailed 403 "boom") else none,
   .ok []⟩
theorem runLoop_skip_time {h : Handler} {env : Env} {aC sC : String} {m : Nat}
    {t : Tweet} {rest : List Tweet} {st : St} (hA : t.created_at < h.start_time) :
    runLoop h env aC sC m (t :: rest) st = runLoop h env aC sC m rest st := by
  simp [runLoop, hA]
theorem runLoop_skip_self {h : Handler} {env : Env} {aC sC : String} {m : Nat}
    {t : Tweet} {rest : List Tweet} {st : St} (hA : ¬ t.created_at < h.start_time)
    (hB : t.username = h.username) :
    runLoop h env aC sC m (t :: rest) st = runLoop h env aC sC m rest st := by
  simp [runLoop, hA, hB]
theorem runLoop_skip_dedup {h : Handler} {env : Env} {aC sC : String} {m : Nat}
    {t : Tweet} {rest : List Tweet} {st : St} (hA : ¬ t.created_at < h.start_time)
    (hB : ¬ t.username = h.username)
    (hnr : has_responded_to_tweet h st.records t.id = .ok true) :
    runLoop h env aC sC m (t :: rest) st = runLoop h env aC sC m rest st := by
  simp [runLoop, hA, hB, hnr]
theorem runLoop_abort_dedup {h : Handler} {env : Env} {aC sC : String} {m : Nat}
    {t : Tweet} {rest : List Tweet} {st : St} {e : Exc}
    (hA : ¬ t.created_at < h.start_time) (hB : ¬ t.username = h.username)
    (hnr : has_responded_to_tweet h st.records t.id = .error e) :
    runLoop h env aC sC m (t :: rest) st = (st, some e) := by
  simp [runLoop, hA, hB, hnr]
theorem filter_eq_length_pos (recs : List Nat) (x : Nat) :
    (0 < (recs.filter (fun r => r = x)).length) ↔ x ∈ recs := by
  rw [List.length_pos_iff_exists_mem]
  constructor
  · rintro ⟨a, ha⟩
    rcases List.mem_filter.mp ha with ⟨hmem, heq⟩
    exact (by simpa using heq) ▸ hmem
  · intro hx
    exact ⟨x, List.mem_filter.mpr ⟨hx, by simp⟩⟩
/-- With a configured chroma client whose lookup succeeds, the dedup
predicate is exactly membership of the id in the collection. -/
theorem has_responded_ok {h : Handler} {c : Chroma} (hc : h.chroma_client = some c)
    {x : Nat} (hg : c.getExc x = none) (recs : List Nat) :
    has_responded_to_tweet h recs x = .ok (decide (x ∈ recs)) := by
  simp only [has_responded_to_tweet, hc, hg]
  congr 1
  rw [decide_eq_decide]
  exact filter_eq_length_pos recs x
/-- With no chroma client the dedup predicate raises `AttributeError`
(not caught by the narrow handler). -/
theorem has_responded_none {h : Handler} (hc : h.chroma_client = none)
    (recs : List Nat) (x : Nat) :
    has_responded_to_tweet h recs x = .error .attrError := by
  simp [has_responded_to_tweet, hc, narrowCatch]
theorem log_response_ok {h : Handler} {c : Chroma} (hc : h.chroma_client = some c)
    {x : Nat} (ha : c.addExc x = none) (recs : List Nat) :
    log_response h recs x = .ok (recs ++ [x], true) := by
  simp [log_response, hc, ha]
/-- Unpacking of `stepOkB`. -/
theorem stepOkB_elim {h : Handler} {env : Env} {aC sC : String} {t : Tweet}
    (hok : stepOkB h env aC sC t = true) :
    ∃ c, h.chroma_client = some c ∧ c.getExc t.id = none ∧ c.addExc t.id = none ∧
      ∃ r, respTextRes h aC sC t = .ok r ∧ env.sendExc (some t.id) = none ∧
        updRes h t r = .ok () := by
  simp only [stepOkB, Bool.and_eq_true] at hok
  obtain ⟨h1, h2⟩ := hok
  rcases hcc : h.chroma_client with _ | c
  · rw [hcc] at h1; simp at h1
  · rw [hcc] at h1
    simp only [Bool.and_eq_true, Option.isNone_iff_eq_none] at h1
    rcases hresp : respTextRes h aC sC t with e | r
    · rw [hresp] at h2; simp at h2
    · rw [hresp] at h2
      simp only [Bool.and_eq_true, Option.isNone_iff_eq_none] at h2
      rcases hupd : updRes h t r with e | u
      · rw [hupd] at h2; simp at h2
      · exact ⟨c, rfl, h1.1, h1.2, r, rfl, h2.1, by rw [hupd]⟩
theorem runLoop_process {h : Handler} {env : Env} {aC sC : String} {m : Nat}
    {t : Tweet} {rest : List Tweet} {st : St} {ctx r : String} {recs2 : List Nat}
    (hA : ¬ t.created_at < h.start_time) (hB : ¬ t.username = h.username)
    (hnr : has_responded_to_tweet h st.records t.id = .ok false)
    (hctx : userCtxRes h aC t = .ok ctx)
    (hgen : generate_response h (getTweetResponsePrompt t.text t.username sC) ctx = .ok r)
    (hsend : env.sendExc (some t.id) = none)
    (hupd : updRes h t r = .ok ())
    (hlog : log_response h st.records t.id = .ok (recs2, true)) :
    runLoop h env aC sC m (t :: rest) st =
      (let st4 : St :=
        { st with processed := st.processed ++ [t.id]
                  nResponses := st.nResponses + 1
                  posts := st.posts ++ [(r, some t.id)]
                  records := recs2
                  logged := st.logged ++ [t.id] }
       if m ≤ st.nResponses + 1 then (st4, none)
       else runLoop h env aC sC m rest st4) := by
  simp [runLoop, hA, hB, hnr, hctx, hgen, hsend, hupd, hlog]
/-- When every candidate in the list has distinct ids and all
collaborator calls succeed, the loop runs to completion with no
exception: it processes, replies to, and records exactly the eligible
candidates up to the reply cap, in list order. -/
theorem runLoop_characterization (h : Handler) (env : Env) (aC sC : String) (m : Nat) :
    ∀ (l : List Tweet) (st : St), (l.map Tweet.id).Nodup →
    (∀ t ∈ l, stepOkB h env aC sC t = true) →
    runLoop h env aC sC m l st =
      ({ records := st.records ++ (cycleTaken h st.records m st.nResponses l).map Tweet.id
         processed := st.processed ++ (cycleTaken h st.records m st.nResponses l).map Tweet.id
         posts := st.posts ++
           (cycleTaken h st.records m st.nResponses l).map
             (fun t => (respValue h aC sC t, some t.id))
         logged := st.logged ++ (cycleTaken h st.records m st.nResponses l).map Tweet.id
         nResponses := st.nResponses + (cycleTaken h st.records m st.nResponses l).length
         caught := st.caught }, none) := by
  intro l
  induction l with
  | nil =>
    intro st _ _
    simp [runLoop, cycleTaken]
  | cons t rest ih =>
    intro st hnd hok
    rw [List.map_cons, List.nodup_cons] at hnd
    have htid : t.id ∉ rest.map Tweet.id := hnd.1
    have hndr : (rest.map Tweet.id).Nodup := hnd.2
    have hokr : ∀ u ∈ rest, stepOkB h env aC sC u = true :=
      fun u hu => hok u (List.mem_cons_of_mem _ hu)
    obtain ⟨c, hc, hget, hadd, r, hresp, hsend, hupd⟩ :=
      stepOkB_elim (hok t (List.mem_cons_self _ _))
    by_cases hA : t.created_at < h.start_time
    · have helig : eligB h st.records t = false := by simp [eligB, hA]
      rw [runLoop_skip_time hA, ih st hndr hokr]
      simp [cycleTaken, List.filter_cons, helig]
    · by_cases hB : t.username = h.username
      · have helig : eligB h st.records t = false := by simp [eligB, hB]
        rw [runLoop_skip_self hA hB, ih st hndr hokr]
        simp [cycleTaken, List.filter_cons, helig]
      · by_cases hmem : t.id ∈ st.records
        · have hnr : has_responded_to_tweet h st.records t.id = .ok true := by
            rw [has_responded_ok hc hget]; simp [hmem]
          have helig : eligB h st.records t = false := by simp [eligB, hmem]
          rw [runLoop_skip_dedup hA hB hnr, ih st hndr hokr]
          simp [cycleTaken, List.filter_cons, helig]
        · have hnr : has_responded_to_tweet h st.records t.id = .ok false := by
            rw [has_responded_ok hc hget]; simp [hmem]
          have helig : eligB h st.records t = true := by simp [eligB, hA, hB, hmem]
          obtain ⟨ctx, hctx, hgen⟩ :
              ∃ ctx, userCtxRes h aC t = .ok ctx ∧
                generate_response h (getTweetResponsePrompt t.text t.username sC) ctx = .ok r := by
            unfold respTextRes at hresp
            rcases hu : userCtxRes h aC t with e | ctx
            · rw [hu] at hresp; cases hresp
            · rw [hu] at hresp; exact ⟨ctx, rfl, hresp⟩
          have hrv : respValue h aC sC t = r := by
            simp [respValue, hresp]
          rw [runLoop_process hA hB hnr hctx hgen hsend hupd
            (log_response_ok hc hadd st.records)]
          simp only []
          by_cases hstop : m ≤ st.nResponses + 1
          · rw [if_pos hstop]
            have hk : stopCount m st.nResponses
                ((rest.filter (eligB h st.records)).length + 1) = 1 := by
              simp only [stopCount]; omega
            simp [cycleTaken, List.filter_cons, helig, hk, hrv]
          · rw [if_neg hstop]
            have hfc : ∀ u ∈ rest,
                eligB h (st.records ++ [t.id]) u = eligB h st.records u := by
              intro u hu
              have : u.id ≠ t.id := by
                intro hcontra
                exact htid (hcontra ▸ List.mem_map_of_mem Tweet.id hu)
              simp [eligB, List.mem_append, this]
            rw [ih _ hndr hokr]
            have hfilter : rest.filter (eligB h (st.records ++ [t.id])) =
                rest.filter (eligB h st.records) := List.filter_congr hfc
            have hk : stopCount m st.nResponses
                  ((rest.filter (eligB h st.records)).length + 1) =
                stopCount m (st.nResponses + 1)
                  (rest.filter (eligB h st.records)).length + 1 := by
              simp only [stopCount]; omega
            simp [cycleTaken, List.filter_cons, helig, hfilter, hk, hrv, List.take_succ_cons]
            omega
/-- Exhaustive case analysis of one processing step (candidate past all
filters), for arbitrary collaborator behaviour: the cycle aborts before
the post, aborts between post and record, or completes the step. -/
theorem runLoop_process_cases {h : Handler} {env : Env} {aC sC : String} {m : Nat}
    {t : Tweet} {rest : List Tweet} {st : St}
    (hA : ¬ t.created_at < h.start_time) (hB : ¬ t.username = h.username)
    (hnr : has_responded_to_tweet h st.records t.id = .ok false) :
    (∃ e, runLoop h env aC sC m (t :: rest) st =
        ({ st with processed := st.processed ++ [t.id] }, some e)) ∨
    (∃ e, env.sendExc (some t.id) = some e ∧ runLoop h env aC sC m (t :: rest) st =
        ({ st with processed := st.processed ++ [t.id]
                   nResponses := st.nResponses + 1 }, some e)) ∨
    (∃ e rr, env.sendExc (some t.id) = none ∧ runLoop h env aC sC m (t :: rest) st =
        ({ st with processed := st.processed ++ [t.id]
                   nResponses := st.nResponses + 1
                   posts := st.posts ++ [(rr, some t.id)] }, some e)) ∨
    (∃ rr recs2 wrote, env.sendExc (some t.id) = none ∧
      log_response h st.records t.id = .ok (recs2, wrote) ∧
      (let st4 : St :=
        { st with processed := st.processed ++ [t.id]
                  nResponses := st.nResponses + 1
                  posts := st.posts ++ [(rr, some t.id)]
                  records := recs2
                  logged := if wrote then st.logged ++ [t.id] else st.logged }
       (m ≤ st.nResponses + 1 ∧ runLoop h env aC sC m (t :: rest) st = (st4, none)) ∨
       (¬ m ≤ st.nResponses + 1 ∧
         runLoop h env aC sC m (t :: rest) st = runLoop h env aC sC m rest st4))) := by
  rcases hctx : userCtxRes h aC t with e | ctx
  · exact Or.inl ⟨e, by simp [runLoop, hA, hB, hnr, hctx]⟩
  · rcases hgen : generate_response h (getTweetResponsePrompt t.text t.username sC) ctx
      with e | r
    · exact Or.inl ⟨e, by simp [runLoop, hA, hB, hnr, hctx, hgen]⟩
    · rcases hsend : env.sendExc (some t.id) with _ | e
      · rcases hupd : updRes h t r with e | u
        · exact Or.inr (Or.inr (Or.inl ⟨e, r, rfl,
            by simp [runLoop, hA, hB, hnr, hctx, hgen, hsend, hupd]⟩))
        · rcases hlog : log_response h st.records t.id with e | recs2
          · exact Or.inr (Or.inr (Or.inl ⟨e, r, rfl,
              by simp [runLoop, hA, hB, hnr, hctx, hgen, hsend, hupd, hlog]⟩))
          · refine Or.inr (Or.inr (Or.inr ⟨r, recs2.1, recs2.2, rfl, by simp [hlog], ?_⟩))
            by_cases hstop : m ≤ st.nResponses + 1
            · exact Or.inl ⟨hstop,
                by simp [runLoop, hA, hB, hnr, hctx, hgen, hsend, hupd, hlog, hstop]⟩
            · exact Or.inr ⟨hstop,
                by simp [runLoop, hA, hB, hnr, hctx, hgen, hsend, hupd, hlog, hstop]⟩
      · exact Or.inr (Or.inl ⟨e, rfl,
          by simp [runLoop, hA, hB, hnr, hctx, hgen, hsend]⟩)
/-- If every candidate in the list carrying id `x` predates the session
window start, then the loop neither processes, nor replies to, nor
records id `x` — for arbitrary collaborator behaviour. -/
theorem runLoop_avoid (h : Handler) (env : Env) (aC sC : String) (m : Nat) (x : Nat) :
    ∀ (l : List Tweet) (st : St),
    (∀ u ∈ l, u.id = x → u.created_at < h.start_time) →
    x ∉ st.processed → (∀ s, (s, some x) ∉ st.posts) → x ∉ st.logged →
    x ∉ (runLoop h env aC sC m l st).1.processed ∧
      (∀ s, (s, some x) ∉ (runLoop h env aC sC m l st).1.posts) ∧
      x ∉ (runLoop h env aC sC m l st).1.logged := by
  intro l
  induction l with
  | nil =>
    intro st _ hp hpo hlog
    simpa [runLoop] using ⟨hp, hpo, hlog⟩
  | cons t rest ih =>
    intro st hl hp hpo hlog
    have hlr : ∀ u ∈ rest, u.id = x → u.created_at < h.start_time :=
      fun u hu => hl u (List.mem_cons_of_mem _ hu)
    by_cases hA : t.created_at < h.start_time
    · rw [runLoop_skip_time hA]; exact ih st hlr hp hpo hlog
    · have htx : t.id ≠ x := fun hcontra => hA (hl t (List.mem_cons_self _ _) hcontra)
      have hp2 : x ∉ st.processed ++ [t.id] := by
        simp only [List.mem_append, List.mem_singleton]
        rintro (h1 | h2)
        · exact hp h1
        · exact htx h2.symm
      have hpo2 : ∀ rr s, (s, some x) ∉ st.posts ++ [(rr, some t.id)] := by
        intro rr s
        simp only [List.mem_append, List.mem_singleton]
        rintro (h1 | h2)
        · exact hpo s h1
        · exact htx (by simpa using (congrArg Prod.snd h2).symm)
      by_cases hB : t.username = h.username
      · rw [runLoop_skip_self hA hB]; exact ih st hlr hp hpo hlog
      · rcases hnr : has_responded_to_tweet h st.records t.id with e | b
        · rw [runLoop_abort_dedup hA hB hnr]; exact ⟨hp, hpo, hlog⟩
        · cases b with
          | true => rw [runLoop_skip_dedup hA hB hnr]; exact ih st hlr hp hpo hlog
          | false =>
            rcases @runLoop_process_cases h env aC sC m t rest st hA hB hnr with
              ⟨e, heq⟩ | ⟨e, _, heq⟩ | ⟨e, rr, _, heq⟩ |
              ⟨rr, recs2, wrote, _, _, hrest⟩
            · rw [heq]; exact ⟨hp2, hpo, hlog⟩
            · rw [heq]; exact ⟨hp2, hpo, hlog⟩
            · rw [heq]; exact ⟨hp2, hpo2 rr, hlog⟩
            · have hlog2 : x ∉ (if wrote then st.logged ++ [t.id] else st.logged) := by
                by_cases hw : wrote <;> simp only [hw, if_true, if_false]
                · simp only [List.mem_append, List.mem_singleton]
                  rintro (h1 | h2)
                  · exact hlog h1
                  · exact htx h2.symm
                · exact hlog
              rcases hrest with ⟨_, heq⟩ | ⟨_, heq⟩
              · rw [heq]; exact ⟨hp2, hpo2 rr, hlog2⟩
              · rw [heq]
                exact ih _ hlr hp2 (hpo2 rr) hlog2
/-- An `.ok` dedup result implies a configured chroma client. -/
theorem has_responded_isOk_chroma {h : Handler} {recs : List Nat} {x : Nat} {b : Bool}
    (hok : has_responded_to_tweet h recs x = .ok b) :
    ∃ c, h.chroma_client = some c := by
  rcases hc : h.chroma_client with _ | c
  · rw [has_responded_none hc] at hok; cases hok
  · exact ⟨c, rfl⟩
/-- A normal `log_response` return under a configured chroma client
always wrote the record. -/
theorem log_response_some_elim {h : Handler} {c : Chroma} (hc : h.chroma_client = some c)
    {recs recs2 : List Nat} {wrote : Bool} {x : Nat}
    (hlog : log_response h recs x = .ok (recs2, wrote)) :
    recs2 = recs ++ [x] ∧ wrote = true := by
  simp only [log_response, hc] at hlog
  rcases ha : c.addExc x with _ | e
  · rw [ha] at hlog
    simp only [Except.ok.injEq, Prod.mk.injEq] at hlog
    exact ⟨hlog.1.symm, hlog.2.symm⟩
  · rw [ha] at hlog; cases hlog
/-- Record/post correspondence for arbitrary collaborator behaviour:
starting from balanced books, either every posted reply got its Response
Record, or the loop aborted and exactly the last posted reply is
missing its record. -/
theorem runLoop_posts_logged (h : Handler) (env : Env) (aC sC : String) (m : Nat) :
    ∀ (l : List Tweet) (st : St),
    st.posts.map Prod.snd = st.logged.map some →
    (runLoop h env aC sC m l st).1.posts.map Prod.snd =
        (runLoop h env aC sC m l st).1.logged.map some ∨
      ((runLoop h env aC sC m l st).2.isSome ∧
        ∃ x, (runLoop h env aC sC m l st).1.posts.map Prod.snd =
          (runLoop h env aC sC m l st).1.logged.map some ++ [some x]) := by
  intro l
  induction l with
  | nil =>
    intro st hbal
    simp only [runLoop]
    exact Or.inl hbal
  | cons t rest ih =>
    intro st hbal
    by_cases hA : t.created_at < h.start_time
    · rw [runLoop_skip_time hA]; exact ih st hbal
    · by_cases hB : t.username = h.username
      · rw [runLoop_skip_self hA hB]; exact ih st hbal
      · rcases hnr : has_responded_to_tweet h st.records t.id with e | b
        · rw [runLoop_abort_dedup hA hB hnr]; exact Or.inl hbal
        · cases b with
          | true => rw [runLoop_skip_dedup hA hB hnr]; exact ih st hbal
          | false =>
            obtain ⟨c, hc⟩ := has_responded_isOk_chroma hnr
            rcases @runLoop_process_cases h env aC sC m t rest st hA hB hnr with
              ⟨e, heq⟩ | ⟨e, _, heq⟩ | ⟨e, rr, _, heq⟩ |
              ⟨rr, recs2, wrote, _, hlg, hrest⟩
            · rw [heq]; exact Or.inl hbal
            · rw [heq]; exact Or.inl hbal
            · rw [heq]
              right
              refine ⟨?_, t.id, ?_⟩
              · simp
              · simp [hbal]
            · obtain ⟨hrecs2, hwrote⟩ := log_response_some_elim hc hlg
              subst hwrote
              have hbal4 : (st.posts ++ [(rr, some t.id)]).map Prod.snd =
                  (st.logged ++ [t.id]).map some := by
                simp [hbal]
              rcases hrest with ⟨_, heq⟩ | ⟨_, heq⟩
              · rw [heq]; exact Or.inl (by simpa using hbal4)
              · rw [heq]
                exact ih _ (by simpa using hbal4)
/-- When posting always raises, nothing is posted, nothing recorded, and
at most one candidate reaches the reply pipeline before the cycle
aborts. -/
theorem runLoop_sends_fail (h : Handler) (env : Env) (aC sC : String) (m : Nat)
    (hs : ∀ i : Nat, ∃ e, env.sendExc (some i) = some e) :
    ∀ (l : List Tweet) (st : St),
    (runLoop h env aC sC m l st).1.posts = st.posts ∧
      (runLoop h env aC sC m l st).1.logged = st.logged ∧
      (runLoop h env aC sC m l st).1.processed.length ≤ st.processed.length + 1 := by
  intro l
  induction l with
  | nil =>
    intro st
    simp [runLoop]
  | cons t rest ih =>
    intro st
    by_cases hA : t.created_at < h.start_time
    · rw [runLoop_skip_time hA]; exact ih st
    · by_cases hB : t.username = h.username
      · rw [runLoop_skip_self hA hB]; exact ih st
      · rcases hnr : has_responded_to_tweet h st.records t.id with e | b
        · rw [runLoop_abort_dedup hA hB hnr]; exact ⟨rfl, rfl, Nat.le_succ _⟩
        · cases b with
          | true => rw [runLoop_skip_dedup hA hB hnr]; exact ih st
          | false =>
            rcases @runLoop_process_cases h env aC sC m t rest st hA hB hnr with
              ⟨e, heq⟩ | ⟨e, _, heq⟩ | ⟨e, rr, hse, heq⟩ |
              ⟨rr, recs2, wrote, hse, _, _⟩
            · rw [heq]; exact ⟨rfl, rfl, by simp⟩
            · rw [heq]; exact ⟨rfl, rfl, by simp⟩
            · obtain ⟨e2, he2⟩ := hs t.id
              rw [he2] at hse; cases hse
            · obtain ⟨e2, he2⟩ := hs t.id
              rw [he2] at hse; cases hse
/-- Unpacking of `preSendOkB`. -/
theorem preSendOkB_elim {h : Handler} {aC sC : String} {t : Tweet}
    (hpre : preSendOkB h aC sC t = true) :
    ∃ c, h.chroma_client = some c ∧ c.getExc t.id = none ∧
      ∃ r, respTextRes h aC sC t = .ok r := by
  simp only [preSendOkB, Bool.and_eq_true] at hpre
  obtain ⟨h1, h2⟩ := hpre
  rcases hcc : h.chroma_client with _ | c
  · rw [hcc] at h1; simp at h1
  · rw [hcc] at h1
    simp only [Option.isNone_iff_eq_none] at h1
    rcases hresp : respTextRes h aC sC t with e | r
    · rw [hresp] at h2; simp at h2
    · exact ⟨c, rfl, h1, r, rfl⟩

/-- A decomposition of a filtered list around one surviving element
lifts to a decomposition of the original list. -/
theorem filter_eq_append_cons (p : Tweet → Bool) :
    ∀ (l E₁ E₂ : List Tweet) (x : Tweet), l.filter p = E₁ ++ x :: E₂ →
    ∃ l₁ l₂, l = l₁ ++ x :: l₂ ∧ l₁.filter p = E₁ ∧ l₂.filter p = E₂ := by
  intro l
  induction l with
  | nil =>
    intro E₁ E₂ x hsplit
    rw [List.filter_nil] at hsplit
    cases E₁ with
    | nil => cases hsplit
    | cons b E₁x => cases hsplit
  | cons a l ih =>
    intro E₁ E₂ x hsplit
    by_cases hpa : p a
    · rw [List.filter_cons_of_pos hpa] at hsplit
      cases E₁ with
      | nil =>
        rw [List.nil_append] at hsplit
        injection hsplit with h1 h2
        subst h1
        exact ⟨[], l, rfl, rfl, h2⟩
      | cons b E₁x =>
        rw [List.cons_append] at hsplit
        injection hsplit with h1 h2
        subst h1
        obtain ⟨l₁, l₂, hl, hf1, hf2⟩ := ih E₁x E₂ x h2
        refine ⟨a :: l₁, l₂, by rw [hl, List.cons_append], ?_, hf2⟩
        rw [List.filter_cons_of_pos hpa, hf1]
    · rw [List.filter_cons_of_neg hpa] at hsplit
      obtain ⟨l₁, l₂, hl, hf1, hf2⟩ := ih E₁ E₂ x hsplit
      refine ⟨a :: l₁, l₂, by rw [hl, List.cons_append], ?_, hf2⟩
      rw [List.filter_cons_of_neg hpa, hf1]

/-- Mid-batch posting failure: with distinct ids, fully successful
collaborators on the candidates before `x`, successful pre-send steps
for `x` itself, and the post for `x` raising, the loop replies to and
records exactly the eligible candidates before `x`, processes `x`
without posting or recording it, and aborts — the candidates after `x`
are never reached. -/
theorem runLoop_send_abort (h : Handler) (env : Env) (aC sC : String) (m : Nat)
    (x : Tweet) (e : Exc) (hsendx : env.sendExc (some x.id) = some e)
    (hpre : preSendOkB h aC sC x = true) :
    ∀ (l₁ l₂ : List Tweet) (st : St),
    ((l₁ ++ x :: l₂).map Tweet.id).Nodup →
    (∀ t ∈ l₁, stepOkB h env aC sC t = true) →
    eligB h st.records x = true →
    (l₁.filter (eligB h st.records)).length < max (m - st.nResponses) 1 →
    runLoop h env aC sC m (l₁ ++ x :: l₂) st =
      ({ records := st.records ++ (l₁.filter (eligB h st.records)).map Tweet.id
         processed := st.processed ++
           (l₁.filter (eligB h st.records)).map Tweet.id ++ [x.id]
         posts := st.posts ++ (l₁.filter (eligB h st.records)).map
           (fun t => (respValue h aC sC t, some t.id))
         logged := st.logged ++ (l₁.filter (eligB h st.records)).map Tweet.id
         nResponses := st.nResponses + (l₁.filter (eligB h st.records)).length + 1
         caught := st.caught }, some e) := by
  obtain ⟨c, hc, hget, r, hr⟩ := preSendOkB_elim hpre
  intro l₁
  induction l₁ with
  | nil =>
    intro l₂ st hnd hok heligx hbud
    simp only [eligB, Bool.and_eq_true, Bool.not_eq_true',
      decide_eq_false_iff_not] at heligx
    obtain ⟨⟨hA, hB⟩, hC⟩ := heligx
    have hnr : has_responded_to_tweet h st.records x.id = .ok false := by
      rw [has_responded_ok hc hget]
      simp [hC]
    obtain ⟨ctx, hctx, hgen⟩ :
        ∃ ctx, userCtxRes h aC x = .ok ctx ∧
          generate_response h (getTweetResponsePrompt x.text x.username sC) ctx =
            .ok r := by
      unfold respTextRes at hr
      rcases hu : userCtxRes h aC x with e2 | ctx
      · rw [hu] at hr; cases hr
      · rw [hu] at hr; exact ⟨ctx, rfl, hr⟩
    rw [List.nil_append]
    simp [runLoop, hA, hB, hnr, hctx, hgen, hsendx]
  | cons t rest ih =>
    intro l₂ st hnd hok heligx hbud
    rw [List.cons_append, List.map_cons, List.nodup_cons] at hnd
    have htid : t.id ∉ (rest ++ x :: l₂).map Tweet.id := hnd.1
    have hndr : ((rest ++ x :: l₂).map Tweet.id).Nodup := hnd.2
    have htx : t.id ≠ x.id := by
      intro hcontra
      apply htid
      rw [hcontra, List.map_append, List.map_cons]
      exact List.mem_append_right _ (List.mem_cons_self _ _)
    have hokr : ∀ u ∈ rest, stepOkB h env aC sC u = true :=
      fun u hu => hok u (List.mem_cons_of_mem _ hu)
    obtain ⟨c2, hc2, hget2, hadd2, r2, hresp2, hsend2, hupd2⟩ :=
      stepOkB_elim (hok t (List.mem_cons_self _ _))
    by_cases hA : t.created_at < h.start_time
    · have helig : eligB h st.records t = false := by simp [eligB, hA]
      rw [List.cons_append, runLoop_skip_time hA,
        ih l₂ st hndr hokr heligx (by simpa [List.filter_cons, helig] using hbud)]
      simp [List.filter_cons, helig]
    · by_cases hB : t.username = h.username
      · have helig : eligB h st.records t = false := by simp [eligB, hB]
        rw [List.cons_append, runLoop_skip_self hA hB,
          ih l₂ st hndr hokr heligx (by simpa [List.filter_cons, helig] using hbud)]
        simp [List.filter_cons, helig]
      · by_cases hmem : t.id ∈ st.records
        · have hnr : has_responded_to_tweet h st.records t.id = .ok true := by
            rw [has_responded_ok hc2 hget2]; simp [hmem]
          have helig : eligB h st.records t = false := by simp [eligB, hmem]
          rw [List.cons_append, runLoop_skip_dedup hA hB hnr,
            ih l₂ st hndr hokr heligx (by simpa [List.filter_cons, helig] using hbud)]
          simp [List.filter_cons, helig]
        · have hnr : has_responded_to_tweet h st.records t.id = .ok false := by
            rw [has_responded_ok hc2 hget2]; simp [hmem]
          have helig : eligB h st.records t = true := by simp [eligB, hA, hB, hmem]
          obtain ⟨ctx2, hctx2, hgen2⟩ :
              ∃ ctx2, userCtxRes h aC t = .ok ctx2 ∧
                generate_response h (getTweetResponsePrompt t.text t.username sC)
                  ctx2 = .ok r2 := by
            unfold respTextRes at hresp2
            rcases hu : userCtxRes h aC t with e2 | ctx2
            · rw [hu] at hresp2; cases hresp2
            · rw [hu] at hresp2; exact ⟨ctx2, rfl, hresp2⟩
          have hrv2 : respValue h aC sC t = r2 := by
            simp [respValue, hresp2]
          have hlen : (List.filter (eligB h st.records) (t :: rest)).length =
              (rest.filter (eligB h st.records)).length + 1 := by
            simp [List.filter_cons, helig]
          rw [hlen] at hbud
          have hstop : ¬ m ≤ st.nResponses + 1 := by omega
          rw [List.cons_append, runLoop_process hA hB hnr hctx2 hgen2 hsend2 hupd2
            (log_response_ok hc2 hadd2 st.records)]
          simp only []
          rw [if_neg hstop]
          have hneqrest : ∀ u ∈ rest ++ x :: l₂, u.id ≠ t.id := by
            intro u hu hcontra
            exact htid (by rw [← hcontra]; exact List.mem_map_of_mem Tweet.id hu)
          have heligx4 : eligB h (st.records ++ [t.id]) x = true := by
            have hxne : x.id ≠ t.id :=
              hneqrest x (List.mem_append_right _ (List.mem_cons_self _ _))
            simp only [eligB, Bool.and_eq_true, Bool.not_eq_true',
              decide_eq_false_iff_not] at heligx ⊢
            refine ⟨heligx.1, ?_⟩
            simp only [List.mem_append, List.mem_singleton]
            rintro (hin | hin)
            · exact heligx.2 hin
            · exact hxne hin
          have hfilter : rest.filter (eligB h (st.records ++ [t.id])) =
              rest.filter (eligB h st.records) := by
            apply List.filter_congr
            intro u hu
            have hneq : u.id ≠ t.id := hneqrest u (List.mem_append_left _ hu)
            simp [eligB, List.mem_append, hneq]
          have hbud4 : (rest.filter (eligB h (st.records ++ [t.id]))).length <
              max (m - (st.nResponses + 1)) 1 := by
            rw [hfilter]; omega
          rw [ih l₂ _ hndr hokr heligx4 hbud4]
          simp only [hfilter]
          simp [List.filter_cons, helig, hrv2]
          omega

/-- With no chroma client, the first candidate that survives the
timestamp and self-author filters makes the dedup lookup raise
`AttributeError`, aborting the loop with the state untouched. -/
theorem runLoop_chroma_none (h : Handler) (env : Env) (aC sC : String) (m : Nat)
    (hc : h.chroma_client = none) :
    ∀ (l : List Tweet) (st : St),
    (∃ t ∈ l, ¬(t.created_at < h.start_time) ∧ t.username ≠ h.username) →
    runLoop h env aC sC m l st = (st, some .attrError) := by
  intro l
  induction l with
  | nil =>
    rintro st ⟨t, ht, _⟩
    cases ht
  | cons t rest ih =>
    rintro st ⟨u, hu, hu1, hu2⟩
    by_cases hA : t.created_at < h.start_time
    · rw [runLoop_skip_time hA]
      rcases List.mem_cons.mp hu with rfl | hu'
      · exact absurd hA hu1
      · exact ih st ⟨u, hu', hu1, hu2⟩
    · by_cases hB : t.username = h.username
      · rw [runLoop_skip_self hA hB]
        rcases List.mem_cons.mp hu with rfl | hu'
        · exact absurd hB hu2
        · exact ih st ⟨u, hu', hu1, hu2⟩
      · rw [runLoop_abort_dedup hA hB (has_responded_none hc st.records t.id)]
/-- A list sorted by non-strict id order with pairwise-distinct ids is
sorted by strict id order. -/
theorem pairwise_lt_of_sorted_nodup :
    ∀ l : List Tweet, List.Pairwise (fun a b => a.id ≤ b.id) l →
    (l.map Tweet.id).Nodup → List.Pairwise (fun a b => a.id < b.id) l := by
  intro l
  induction l with
  | nil => intro _ _; exact List.Pairwise.nil
  | cons t rest ih =>
    intro hs hnd
    rw [List.pairwise_cons] at hs ⊢
    rw [List.map_cons, List.nodup_cons] at hnd
    refine ⟨fun b hb => lt_of_le_of_ne (hs.1 b hb) ?_, ih hs.2 hnd.2⟩
    intro he
    exact hnd.1 (by rw [he]; exact List.mem_map_of_mem Tweet.id hb)
/-- Filtering commutes with the stable ascending-id sort, provided the
ids are pairwise distinct. -/
theorem insertionSort_filter (p : Tweet → Bool) (l : List Tweet)
    (hnd : (l.map Tweet.id).Nodup) :
    (List.insertionSort (fun a b => a.id ≤ b.id) l).filter p =
      List.insertionSort (fun a b => a.id ≤ b.id) (l.filter p) := by
  have hsortnd : ((List.insertionSort (fun a b => a.id ≤ b.id) l).map Tweet.id).Nodup :=
    ((List.perm_insertionSort _ l).map Tweet.id).nodup_iff.mpr hnd
  have hfilternd : ((l.filter p).map Tweet.id).Nodup :=
    hnd.sublist ((List.filter_sublist l).map Tweet.id)
  refine @List.eq_of_perm_of_sorted Tweet (fun a b : Tweet => a.id < b.id) _ _ _ ?_ ?_ ?_
  · exact ((List.perm_insertionSort _ l).filter p).trans
      (List.perm_insertionSort _ (l.filter p)).symm
  · exact pairwise_lt_of_sorted_nodup _
      ((List.sorted_insertionSort _ l).filter p)
      (hsortnd.sublist ((List.filter_sublist _).map Tweet.id))
  · exact pairwise_lt_of_sorted_nodup _
      (List.sorted_insertionSort _ (l.filter p))
      (((List.perm_insertionSort _ (l.filter p)).map Tweet.id).nodup_iff.mpr hfilternd)
/-- The in-loop eligibility filter applied to the pre-sorted candidate
list agrees with the spec-side `claimEligible`. -/
theorem candList_filter_eq (h : Handler) (resp : List Tweet)
    (hnd : (resp.map Tweet.id).Nodup) :
    (candList h resp).filter (eligB h (initRecords h)) = claimEligible h resp := by
  unfold candList claimEligible
  rw [insertionSort_filter _ _
    (hnd.sublist ((List.filter_sublist resp).map Tweet.id))]
  congr 1
  rw [List.filter_filter]
  exact List.filter_congr (fun t _ => Bool.and_comm _ _)
/-- Full characterization of one `check_mentions` cycle under distinct
candidate ids and entirely successful collaborators: no exception is
raised or caught, and the reply pipeline processes, posts to, and
records exactly the `claimTaken` candidates. -/
theorem check_mentions_characterization (h : Handler) (env : Env) (sT aC sC : String)
    (m : Nat)
    (hnd : ((env.search sT).map Tweet.id).Nodup)
    (hok : ∀ t ∈ env.search sT, stepOkB h env aC sC t = true) :
    check_mentions h env sT aC sC m =
      ({ records := initRecords h ++ (claimTaken h m (env.search sT)).map Tweet.id
         processed := (claimTaken h m (env.search sT)).map Tweet.id
         posts := (claimTaken h m (env.search sT)).map
           (fun t => (respValue h aC sC t, some t.id))
         logged := (claimTaken h m (env.search sT)).map Tweet.id
         nResponses := (claimTaken h m (env.search sT)).length
         caught := none }, none) := by
  simp only [check_mentions]
  by_cases hemp : (env.search sT).isEmpty
  · have hnil : env.search sT = [] := List.isEmpty_iff.mp hemp
    rw [if_pos hemp]
    simp [claimTaken, claimEligible, hnil, stopCount]
  · rw [if_neg hemp]
    have hndcand : ((candList h (env.search sT)).map Tweet.id).Nodup :=
      ((List.perm_insertionSort _ _).map Tweet.id).nodup_iff.mpr
        (hnd.sublist ((List.filter_sublist _).map Tweet.id))
    have hokcand : ∀ t ∈ candList h (env.search sT), stepOkB h env aC sC t = true :=
      fun t ht => hok t (List.mem_of_mem_filter
        ((List.perm_insertionSort _ _).mem_iff.mp ht))
    rw [runLoop_characterization h env aC sC m (candList h (env.search sT)) _
      hndcand hokcand]
    have hct : cycleTaken h (initRecords h) m 0 (candList h (env.search sT)) =
        claimTaken h m (env.search sT) := by
      unfold cycleTaken claimTaken
      rw [candList_filter_eq h _ hnd]
    simp [hct]
/-!  Concrete fixtures for counterexamples and witnesses. -/
/-- Helper: `check_mentions` neither processes, replies to, nor records
an id whose every candidate predates the session window. -/
theorem check_mentions_avoid (h : Handler) (env : Env) (sT aC sC : String) (m : Nat)
    (x : Nat)
    (hold : ∀ u ∈ env.search sT, u.id = x → u.created_at < h.start_time) :
    x ∉ (check_mentions h env sT aC sC m).1.processed ∧
      (∀ s, (s, some x) ∉ (check_mentions h env sT aC sC m).1.posts) ∧
      x ∉ (check_mentions h env sT aC sC m).1.logged := by
  simp only [check_mentions]
  by_cases hemp : (env.search sT).isEmpty
  · rw [if_pos hemp]; simp
  · rw [if_neg hemp]
    have hl : ∀ u ∈ candList h (env.search sT), u.id = x →
        u.created_at < h.start_time :=
      fun u hu => hold u (List.mem_of_mem_filter
        ((List.perm_insertionSort _ _).mem_iff.mp hu))
    have hres := runLoop_avoid h env aC sC m x (candList h (env.search sT))
      { records := initRecords h, processed := [], posts := [], logged := []
        nResponses := 0, caught := none }
      hl (by simp) (by simp) (by simp)
    exact ⟨hres.1, hres.2.1, hres.2.2⟩
/-! C1 -/
/-- C1, counterexample: with four eligible candidates and the cap at its
default of 3, the reply pipeline does not receive all four eligible
candidates — refuting that the processed sequence is exactly the
filtered candidate set. -/
theorem c1_counterexample :
    (check_mentions baseHandler (okEnv fourTweets) "q" "" "" 3).1.processed ≠
      (claimEligible baseHandler fourTweets).map Tweet.id := by decide
/-- C1 (amended): with distinct ids and successful collaborators, the
candidates that reach the reply pipeline are exactly the eligible ones
(identifier above the cursor, timestamp within the session window,
author not the engine, no Response Record) in strictly ascending id
order, truncated by the reply cap; whenever at most `maxReplies` are
eligible, all of them reach the pipeline. -/
theorem c1_amended_pipeline (h : Handler) (env : Env) (sT aC sC : String) (m : Nat)
    (hnd : ((env.search sT).map Tweet.id).Nodup)
    (hok : ∀ t ∈ env.search sT, stepOkB h env aC sC t = true) :
    (check_mentions h env sT aC sC m).1.processed =
        ((claimEligible h (env.search sT)).map Tweet.id).take
          (stopCount m 0 (claimEligible h (env.search sT)).length) ∧
      (check_mentions h env sT aC sC m).1.processed.Pairwise (· < ·) ∧
      ((claimEligible h (env.search sT)).length ≤ m →
        (check_mentions h env sT aC sC m).1.processed =
          (claimEligible h (env.search sT)).map Tweet.id) := by
  rw [check_mentions_characterization h env sT aC sC m hnd hok]
  have hndelig : ((claimEligible h (env.search sT)).map Tweet.id).Nodup :=
    ((List.perm_insertionSort _ _).map Tweet.id).nodup_iff.mpr
      (hnd.sublist ((List.filter_sublist _).map Tweet.id))
  have hmaptake : (claimTaken h m (env.search sT)).map Tweet.id =
      ((claimEligible h (env.search sT)).map Tweet.id).take
        (stopCount m 0 (claimEligible h (env.search sT)).length) := by
    unfold claimTaken
    rw [List.map_take]
  refine ⟨hmaptake, ?_, ?_⟩
  · have hpw : (claimEligible h (env.search sT)).Pairwise (fun a b => a.id < b.id) :=
      pairwise_lt_of_sorted_nodup _ (List.sorted_insertionSort _ _) hndelig
    have hpwmap : ((claimEligible h (env.search sT)).map Tweet.id).Pairwise (· < ·) :=
      List.pairwise_map.mpr hpw
    exact hmaptake ▸ hpwmap.sublist (List.take_sublist _ _)
  · intro hle
    rw [hmaptake]
    apply List.take_of_length_le
    rw [List.length_map]
    simp only [stopCount]
    omega
/-- Witness for the amended C1 at a concrete input. -/
theorem c1_amended_pipeline_witness :
    (check_mentions baseHandler (okEnv fourTweets) "q" "" "" 9).1.processed =
      (claimEligible baseHandler fourTweets).map Tweet.id :=
  (c1_amended_pipeline baseHandler (okEnv fourTweets) "q" "" "" 9
    (by decide) (by decide)).2.2 (by decide)
/-! C2 -/
/-- C2, counterexample: the engine constructed at instant 1000000
replies to a candidate created at 999990 — i.e. *before* the
construction instant — because `start_time` is set 24 hours earlier. -/
theorem c2_counterexample :
    c2Tweet.created_at < 1000000 ∧
      (check_mentions c2Handler (okEnv [c2Tweet]) "q" "" "" 3).1.posts.map Prod.snd =
        [some 42] := by decide
/-- C2 (amended): the session window start is the construction instant
*minus 24 hours*, and `check_mentions` never processes, replies to, or
records a candidate id all of whose candidates predate that shifted
start, regardless of dedup state or collaborator behaviour. -/
theorem c2_amended_session_window (cu : String)
    (rg : Option (String → String → Except Exc String)) (ch : Option Chroma)
    (sts : List String) (rts : List ReplyTarget)
    (guc : Option (String → Except Exc String))
    (fc : Option (String → Except Exc String))
    (uuc : Option (String → String → Except Exc Unit))
    (cf : CursorFile) (now : Int) (env : Env) (sT aC sC : String) (m : Nat) (x : Nat)
    (hold : ∀ u ∈ env.search sT, u.id = x →
      u.created_at < (mkHandler cu rg ch sts rts guc fc uuc cf now).start_time) :
    (mkHandler cu rg ch sts rts guc fc uuc cf now).start_time = now - hours24 ∧
      x ∉ (check_mentions (mkHandler cu rg ch sts rts guc fc uuc cf now)
        env sT aC sC m).1.processed ∧
      (∀ s, (s, some x) ∉ (check_mentions (mkHandler cu rg ch sts rts guc fc uuc cf now)
        env sT aC sC m).1.posts) ∧
      x ∉ (check_mentions (mkHandler cu rg ch sts rts guc fc uuc cf now)
        env sT aC sC m).1.logged :=
  ⟨rfl, check_mentions_avoid _ env sT aC sC m x hold⟩
/-- Witness for the amended C2 at a concrete input: a candidate older
than 24 hours before construction is left alone. -/
theorem c2_amended_session_window_witness :
    (5 : Nat) ∉ (check_mentions
      (mkHandler "riceai" (some okGen) (some okChroma) [] [] none none none
        .missing 1000000)
      (okEnv [⟨5, "ancient", "alice", 0⟩]) "q" "" "" 3).1.processed :=
  (c2_amended_session_window "riceai" (some okGen) (some okChroma) [] [] none none none
    .missing 1000000 (okEnv [⟨5, "ancient", "alice", 0⟩]) "q" "" "" 3 5
    (by decide)).2.1
/-! C3 -/
/-- C3, counterexample: with `maxReplies = 0` and one eligible candidate
(1 ≥ 0), one reply is posted rather than zero — the cap is only checked
*after* a reply is sent. -/
theorem c3_counterexample :
    (claimEligible baseHandler [c3Tweet]).length = 1 ∧
      (check_mentions baseHandler (okEnv [c3Tweet]) "q" "" "" 0).1.posts.length = 1 := by
  decide
/-- C3 (amended): for `maxReplies = m ≥ 1`, distinct ids, successful
collaborators and at least `m` eligible candidates, exactly `m` replies
are posted; every eligible candidate beyond the first `m` is neither
replied to nor recorded. -/
theorem c3_amended_cap (h : Handler) (env : Env) (sT aC sC : String) (m : Nat)
    (hnd : ((env.search sT).map Tweet.id).Nodup)
    (hok : ∀ t ∈ env.search sT, stepOkB h env aC sC t = true)
    (hm : 1 ≤ m) (hN : m ≤ (claimEligible h (env.search sT)).length) :
    (check_mentions h env sT aC sC m).1.posts.length = m ∧
      ∀ t ∈ (claimEligible h (env.search sT)).drop m,
        (∀ s, (s, some t.id) ∉ (check_mentions h env sT aC sC m).1.posts) ∧
          t.id ∉ (check_mentions h env sT aC sC m).1.logged := by
  rw [check_mentions_characterization h env sT aC sC m hnd hok]
  have hndelig : ((claimEligible h (env.search sT)).map Tweet.id).Nodup :=
    ((List.perm_insertionSort _ _).map Tweet.id).nodup_iff.mpr
      (hnd.sublist ((List.filter_sublist _).map Tweet.id))
  have hk : stopCount m 0 (claimEligible h (env.search sT)).length = m := by
    simp only [stopCount]; omega
  have htaken : claimTaken h m (env.search sT) =
      (claimEligible h (env.search sT)).take m := by
    unfold claimTaken; rw [hk]
  have hdisj : List.Disjoint
      (((claimEligible h (env.search sT)).map Tweet.id).take m)
      (((claimEligible h (env.search sT)).map Tweet.id).drop m) :=
    List.disjoint_take_drop hndelig (Nat.le_refl m)
  constructor
  · simp only [htaken, List.length_map, List.length_take]
    omega
  · intro t ht
    have htid : t.id ∈ ((claimEligible h (env.search sT)).map Tweet.id).drop m := by
      rw [← List.map_drop]
      exact List.mem_map_of_mem Tweet.id ht
    have hnotin : t.id ∉ ((claimEligible h (env.search sT)).map Tweet.id).take m :=
      fun hin => hdisj hin htid
    constructor
    · intro s hs
      simp only [htaken, List.mem_map] at hs
      obtain ⟨u, hu, hueq⟩ := hs
      have : u.id = t.id := by
        have := congrArg Prod.snd hueq
        simpa using this
      apply hnotin
      rw [← this, ← List.map_take]
      exact List.mem_map_of_mem Tweet.id hu
    · intro hin
      apply hnotin
      rw [← List.map_take, ← htaken]
      exact hin
/-- Witness for the amended C3 at a concrete input: two eligible
candidates, cap 1, exactly one reply. -/
theorem c3_amended_cap_witness :
    (check_mentions baseHandler
      (okEnv [⟨21, "x", "alice", 10⟩, ⟨22, "y", "bob", 11⟩]) "q" "" "" 1).1.posts.length
      = 1 :=
  (c3_amended_cap baseHandler (okEnv [⟨21, "x", "alice", 10⟩, ⟨22, "y", "bob", 11⟩])
    "q" "" "" 1 (by decide) (by decide) (by decide) (by decide)).1
/-! C4 -/
/-- C4, counterexample: when the user-context update raises *after* the
reply was posted, the reply exists but no Response Record is written —
refuting the unrestricted "record iff posted" equivalence. -/
theorem c4_counterexample :
    (check_mentions c4Handler (okEnv [c4Tweet]) "q" "" "" 3).1.posts.map Prod.snd =
        [some 7] ∧
      (check_mentions c4Handler (okEnv [c4Tweet]) "q" "" "" 3).1.logged = [] := by
  decide
/-- C4 (amended): in every cycle, either each posted reply has its
Response Record, or the cycle aborted between a post and its record
write and exactly that last post is unrecorded; when posting always
raises, no reply is posted, no record is written, and at most one
candidate reaches the pipeline before the batch aborts; and in general,
whichever eligible candidate the posting raises for — also mid-batch,
after earlier successful replies — is processed but neither posted to
nor recorded, the earlier replies keep their records, and the eligible
candidates after it are never processed. -/
theorem c4_amended_record_iff_posted (h : Handler) (env : Env) (sT aC sC : String)
    (m : Nat) :
    ((check_mentions h env sT aC sC m).1.posts.map Prod.snd =
        (check_mentions h env sT aC sC m).1.logged.map some ∨
      ((check_mentions h env sT aC sC m).1.caught.isSome ∧
        ∃ x, (check_mentions h env sT aC sC m).1.posts.map Prod.snd =
          (check_mentions h env sT aC sC m).1.logged.map some ++ [some x])) ∧
    ((∀ i : Nat, ∃ e, env.sendExc (some i) = some e) →
      (check_mentions h env sT aC sC m).1.posts = [] ∧
        (check_mentions h env sT aC sC m).1.logged = [] ∧
        (check_mentions h env sT aC sC m).1.processed.length ≤ 1) ∧
    (∀ (E₁ E₂ : List Tweet) (x : Tweet) (e : Exc),
      ((env.search sT).map Tweet.id).Nodup →
      claimEligible h (env.search sT) = E₁ ++ x :: E₂ →
      (∀ t ∈ env.search sT, t.id ≠ x.id → stepOkB h env aC sC t = true) →
      preSendOkB h aC sC x = true →
      env.sendExc (some x.id) = some e →
      E₁.length < max m 1 →
      (check_mentions h env sT aC sC m).1.posts =
          E₁.map (fun t => (respValue h aC sC t, some t.id)) ∧
        (check_mentions h env sT aC sC m).1.logged = E₁.map Tweet.id ∧
        x.id ∉ (check_mentions h env sT aC sC m).1.logged ∧
        (check_mentions h env sT aC sC m).1.processed = E₁.map Tweet.id ++ [x.id] ∧
        (check_mentions h env sT aC sC m).1.caught = some e) := by
  refine ⟨?_, ?_, ?_⟩
  · simp only [check_mentions]
    by_cases hemp : (env.search sT).isEmpty
    · rw [if_pos hemp]
      exact Or.inl rfl
    · rw [if_neg hemp]
      exact runLoop_posts_logged h env aC sC m (candList h (env.search sT)) _ rfl
  · intro hs
    simp only [check_mentions]
    by_cases hemp : (env.search sT).isEmpty
    · rw [if_pos hemp]
      exact ⟨rfl, rfl, by simp⟩
    · rw [if_neg hemp]
      have hres := runLoop_sends_fail h env aC sC m hs (candList h (env.search sT))
        { records := initRecords h, processed := [], posts := [], logged := []
          nResponses := 0, caught := none }
      exact ⟨hres.1, hres.2.1, by simpa using hres.2.2⟩
  · intro E₁ E₂ x e hnd hsplit hok hpre hsendx hbud
    have hxmem : x ∈ claimEligible h (env.search sT) := by
      rw [hsplit]
      exact List.mem_append_right _ (List.mem_cons_self _ _)
    have hne : ¬ (env.search sT).isEmpty := by
      intro hemp
      rw [List.isEmpty_iff.mp hemp] at hxmem
      simp [claimEligible] at hxmem
    have hndcand : ((candList h (env.search sT)).map Tweet.id).Nodup :=
      ((List.perm_insertionSort _ _).map Tweet.id).nodup_iff.mpr
        (hnd.sublist ((List.filter_sublist _).map Tweet.id))
    have hfilteq : (candList h (env.search sT)).filter (eligB h (initRecords h)) =
        E₁ ++ x :: E₂ := by
      rw [candList_filter_eq h _ hnd, hsplit]
    obtain ⟨l₁, l₂, hlsplit, hf1, hf2⟩ :=
      filter_eq_append_cons (eligB h (initRecords h)) _ E₁ E₂ x hfilteq
    have heligx : eligB h (initRecords h) x = true := by
      have hmf : x ∈ (candList h (env.search sT)).filter (eligB h (initRecords h)) := by
        rw [hfilteq]
        exact List.mem_append_right _ (List.mem_cons_self _ _)
      exact (List.mem_filter.mp hmf).2
    have hndsplit : ((l₁ ++ x :: l₂).map Tweet.id).Nodup := by
      rw [← hlsplit]; exact hndcand
    have hxnotin : x.id ∉ l₁.map Tweet.id := by
      have hnd2 := hndsplit
      rw [List.map_append, List.map_cons, List.nodup_append] at hnd2
      exact fun hin => hnd2.2.2 hin (List.mem_cons_self _ _)
    have hok1 : ∀ t ∈ l₁, stepOkB h env aC sC t = true := by
      intro t ht
      have htc : t ∈ candList h (env.search sT) := by
        rw [hlsplit]
        exact List.mem_append_left _ ht
      have htmem : t ∈ env.search sT :=
        List.mem_of_mem_filter ((List.perm_insertionSort _ _).mem_iff.mp htc)
      have htne : t.id ≠ x.id := by
        intro hcontra
        apply hxnotin
        rw [← hcontra]
        exact List.mem_map_of_mem Tweet.id ht
      exact hok t htmem htne
    simp only [check_mentions]
    rw [if_neg hne, hlsplit]
    rw [runLoop_send_abort h env aC sC m x e hsendx hpre l₁ l₂ _ hndsplit hok1
      heligx (by simpa [hf1] using hbud)]
    simp only [hf1]
    have hxnotE : x.id ∉ E₁.map Tweet.id := by
      intro hin
      apply hxnotin
      rw [← hf1] at hin
      have hsub : List.Sublist ((l₁.filter (eligB h (initRecords h))).map Tweet.id)
          (l₁.map Tweet.id) := (List.filter_sublist _).map Tweet.id
      exact hsub.mem hin
    refine ⟨?_, ?_, ?_, ?_, ?_⟩
    · simp
    · simp
    · simpa using hxnotE
    · simp
    · trivial
/-- Witness for the amended C4 at two concrete inputs: posting always
failing (nothing posted or recorded), and posting failing mid-batch for
the second of three eligible candidates (first reply posted and
recorded, the failing candidate processed but unrecorded, the third
never processed). -/
theorem c4_amended_record_iff_posted_witness :
    ((check_mentions baseHandler c4FailEnv "q" "" "" 3).1.posts = [] ∧
      (check_mentions baseHandler c4FailEnv "q" "" "" 3).1.logged = [] ∧
      (check_mentions baseHandler c4FailEnv "q" "" "" 3).1.processed.length ≤ 1) ∧
    ((check_mentions baseHandler c4MidEnv "q" "" "" 3).1.logged = [7] ∧
      (8 : Nat) ∉ (check_mentions baseHandler c4MidEnv "q" "" "" 3).1.logged ∧
      (check_mentions baseHandler c4MidEnv "q" "" "" 3).1.processed = [7, 8] ∧
      (check_mentions baseHandler c4MidEnv "q" "" "" 3).1.caught =
        some (.sendFailed 403 "boom")) := by
  constructor
  · exact (c4_amended_record_iff_posted baseHandler c4FailEnv "q" "" "" 3).2.1
      (fun _ => ⟨.sendFailed 403 "Failed to send tweet", rfl⟩)
  · have hmid := (c4_amended_record_iff_posted baseHandler c4MidEnv "q" "" "" 3).2.2
      [⟨7, "yo", "alice", 10⟩] [⟨9, "sup", "carol", 12⟩] ⟨8, "beep", "bob", 11⟩
      (.sendFailed 403 "boom") (by decide) (by decide) (by decide) (by decide)
      (by decide) (by decide)
    exact ⟨hmid.2.1, hmid.2.2.1, hmid.2.2.2.1, hmid.2.2.2.2⟩
/-! C5 -/
/-- C5: the dedup predicate does **not** fail open on a general storage
failure — an exception other than `FileNotFoundError`/`JSONDecodeError`
(here a generic store error) propagates instead of yielding `false`. -/
theorem c5_lookup_failure_propagates :
    has_responded_to_tweet c5Handler [] 42 = .error (.other "db down") := by rfl
/-! C6 -/
/-- C6: the three driver methods `check_mentions`, `monitor_mentions`
and `reply_guy` never propagate an exception to their caller, for every
handler state and every collaborator behaviour: the second component of
each result — the exception escaping the method — is always `none`. -/
theorem c6_drivers_never_propagate (h : Handler) (env : Env) (sT aC sC : String)
    (m ci ci2 choice : Nat) (aC2 aC3 : String) :
    (check_mentions h env sT aC sC m).2 = none ∧
      (monitor_mentions h env ci aC2).2 = none ∧
      (reply_guy h env choice ci2 aC3).2 = none := by
  refine ⟨?_, rfl, ?_⟩
  · simp only [check_mentions]
    split <;> rfl
  · cases hr : h.reply_targets <;> simp [reply_guy, hr]
/-! C7 -/
/-- C7: `search_tweets` never raises (it is total over every modelled
HTTP outcome) and returns the empty sequence on every failure: a raised
request error, a non-200 status, or a malformed (unparseable) body. -/
theorem c7_search_tweets_fail_empty (s : Session) (e : Exc) (status : Nat)
    (txt txt2 : String) (ob : Option SearchBody) :
    search_tweets s (.err e) = [] ∧
      (status ≠ 200 → search_tweets s (.resp status txt ob) = []) ∧
      search_tweets s (.resp 200 txt2 none) = [] := by
  refine ⟨rfl, fun hs => ?_, rfl⟩
  simp [search_tweets, hs]
/-- Witness for C7 at a concrete failing status. -/
theorem c7_search_tweets_fail_empty_witness :
    search_tweets ⟨[], []⟩ (.resp 404 "not found" none) = [] :=
  (c7_search_tweets_fail_empty ⟨[], []⟩ .jsonDecode 404 "not found" "x" none).2.1
    (by decide)
/-! C8 -/
/-- C8: the repository `TwitterClient` exposes no `get_followers`, so
`tweet_to_followers` — which is not wrapped in any handler — aborts by
propagating the `AttributeError` from the attribute access, posting
nothing; the claimed happy path is unreachable with the repository
client. -/
theorem c8_get_followers_missing (h : Handler) (env : Env) (choice ci : Nat)
    (aC : String) (hgf : env.get_followers = twitterClient_get_followers) :
    tweet_to_followers h env choice ci aC = ([], some .attrError) := by
  simp [tweet_to_followers, hgf, twitterClient_get_followers]
/-- Witness for C8 at a concrete input. -/
theorem c8_get_followers_missing_witness :
    tweet_to_followers baseHandler c8Env 0 120 "" = ([], some .attrError) :=
  c8_get_followers_missing baseHandler c8Env 0 120 "" rfl
/-! C9 -/
/-- C9: an engine constructed with `response_generator = None` falls
back to the one-parameter `default_response`, which `generate_response`
then calls with the unexpected keyword argument `additionalContext`:
every call raises (a `TypeError` when generation is reached, or the
fetch-context error if that step fails first), so no reply text can be
produced. -/
theorem c9_default_generator_always_raises (cu : String) (ch : Option Chroma)
    (sts : List String) (rts : List ReplyTarget)
    (guc : Option (String → Except Exc String))
    (fc : Option (String → Except Exc String))
    (uuc : Option (String → String → Except Exc Unit))
    (cf : CursorFile) (now : Int) (text ctx : String) :
    ∃ e, generate_response (mkHandler cu none ch sts rts guc fc uuc cf now) text ctx =
      .error e := by
  simp only [generate_response, mkHandler, callResponseGenerator]
  cases fc with
  | none => exact ⟨.typeError, rfl⟩
  | some f =>
    rcases hf : f text with e | s
    · exact ⟨e, by simp [hf]⟩
    · exact ⟨.typeError, by simp [hf]⟩
/-! C10 -/
/-- C10: with `chroma_client = None`, any search result containing a
candidate that passes the cursor, timestamp and self-author filters
makes the dedup lookup raise `AttributeError`, which the narrow handler
does not catch; the cycle aborts at the method boundary having posted
nothing and recorded nothing. -/
theorem c10_chroma_none_aborts (h : Handler) (env : Env) (sT aC sC : String)
    (m : Nat) (t : Tweet) (hc : h.chroma_client = none)
    (hmem : t ∈ env.search sT) (hcur : cursorVal h < t.id)
    (htime : ¬ t.created_at < h.start_time) (hself : t.username ≠ h.username) :
    (check_mentions h env sT aC sC m).1.posts = [] ∧
      (check_mentions h env sT aC sC m).1.logged = [] ∧
      (check_mentions h env sT aC sC m).1.caught = some .attrError := by
  have hne : ¬ (env.search sT).isEmpty := by
    intro hemp
    rw [List.isEmpty_iff.mp hemp] at hmem
    cases hmem
  simp only [check_mentions]
  rw [if_neg hne]
  have hmemc : t ∈ candList h (env.search sT) := by
    unfold candList
    rw [(List.perm_insertionSort _ _).mem_iff]
    exact List.mem_filter.mpr ⟨hmem, by simpa using hcur⟩
  rw [runLoop_chroma_none h env aC sC m hc _ _ ⟨t, hmemc, htime, hself⟩]
  exact ⟨rfl, rfl, rfl⟩
/-- Witness for C10 at a concrete input. -/
theorem c10_chroma_none_aborts_witness :
    (check_mentions c10Handler (okEnv [c10Tweet]) "q" "" "" 3).1.posts = [] ∧
      (check_mentions c10Handler (okEnv [c10Tweet]) "q" "" "" 3).1.logged = [] ∧
      (check_mentions c10Handler (okEnv [c10Tweet]) "q" "" "" 3).1.caught =
        some .attrError :=
  c10_chroma_none_aborts c10Handler (okEnv [c10Tweet]) "q" "" "" 3 c10Tweet rfl
    (by decide) (by decide) (by decide) (by decide)
